import Mathlib

/-!
Verification of the MCS-4 emulator core (Rust sources under mcs4-emu/crates)
against its natural-language specification.  The Rust code is shallowly
embedded: machine integers become Nat with explicit masking, mutation becomes
explicit state passing, and Result becomes Except.  Each definition mirrors
one Rust item (named in its doc comment).
-/

set_option maxHeartbeats 1000000
set_option maxRecDepth 10000

namespace MCS4

/-- Embeds mcs4-core/src/signal.rs, enum SignalLevel: four-valued logic. -/
inductive SignalLevel
  | low
  | high
  | z
  | x
deriving DecidableEq, Repr

/-- Embeds SignalLevel::invert. -/
def SignalLevel.invert : SignalLevel → SignalLevel
  | .low => .high
  | .high => .low
  | .z => .x
  | .x => .x

/-- Embeds SignalLevel::and. -/
def SignalLevel.land : SignalLevel → SignalLevel → SignalLevel
  | .low, _ => .low
  | _, .low => .low
  | .high, .high => .high
  | _, _ => .x

/-- Embeds SignalLevel::or. -/
def SignalLevel.lor : SignalLevel → SignalLevel → SignalLevel
  | .high, _ => .high
  | _, .high => .high
  | .low, .low => .low
  | _, _ => .x

/-- Embeds SignalLevel::is_defined. -/
def SignalLevel.is_defined : SignalLevel → Bool
  | .low => true
  | .high => true
  | _ => false

/-- Embeds SignalLevel::resolve: multi-driver resolution over a list of levels. -/
def SignalLevel.resolve (drivers : List SignalLevel) : SignalLevel :=
  go drivers false false
where
  /-- The loop of resolve with the has_high and has_low accumulators; an X
  input returns X immediately, exactly as the Rust early return does. -/
  go : List SignalLevel → Bool → Bool → SignalLevel
  | [], hasHigh, hasLow =>
    match hasHigh, hasLow with
    | true, true => .x
    | true, false => .high
    | false, true => .low
    | false, false => .z
  | lvl :: rest, hasHigh, hasLow =>
    match lvl with
    | .high => go rest true hasLow
    | .low => go rest hasHigh true
    | .x => .x
    | .z => go rest hasHigh hasLow

/-- Embeds mcs4-core/src/signal.rs, struct Signal: name, current level, and
a bounded transition history of (time, level) pairs. -/
structure Signal where
  name : String
  current : SignalLevel
  history : List (Nat × SignalLevel)
  max_history : Nat
deriving DecidableEq

/-- Embeds Signal::new (history limit 10000). -/
def Signal.new (name : String) (initial : SignalLevel) : Signal :=
  ⟨name, initial, [], 10000⟩

/-- Embeds Signal::with_history_limit. -/
def Signal.with_history_limit (name : String) (initial : SignalLevel) (limit : Nat) : Signal :=
  ⟨name, initial, [], limit⟩

/-- Embeds Signal::update: record a transition only when the value changes,
evicting the oldest quarter of the history when the bound is reached. -/
def Signal.update (s : Signal) (time : Nat) (value : SignalLevel) : Signal :=
  if value ≠ s.current then
    let hist := if s.history.length ≥ s.max_history then
        s.history.drop (s.max_history / 4)
      else s.history
    { s with history := hist ++ [(time, value)], current := value }
  else s

theorem Signal.update_current (s : Signal) (t : Nat) (v : SignalLevel) :
    (s.update t v).current = v := by
  unfold Signal.update
  split
  · rfl
  · next h => simp only [ne_eq, not_not] at h; exact h.symm

/-- Embeds Signal::clear_history. -/
def Signal.clear_history (s : Signal) : Signal :=
  { s with history := [] }

/-- Result of the embedded Rust slice binary search: Ok(i) or Err(i). -/
inductive SearchResult
  | found (idx : Nat)
  | notFound (idx : Nat)
deriving DecidableEq

/-- Embeds the loop of core slice binary_search_by as used by
binary_search_by_key in Signal::value_at: the key of an entry is its time.
The left and right bounds move exactly as in the Rust loop; fuel is only a
structural-recursion device and is always sufficient, since each iteration
strictly shrinks right - left. -/
def bsearchGo (l : List (Nat × SignalLevel)) (target : Nat) :
    Nat → Nat → Nat → SearchResult
  | 0, left, _ => .notFound left
  | fuel + 1, left, right =>
    if left < right then
      let size := right - left
      let mid := left + size / 2
      let key := (l.getD mid (0, SignalLevel.low)).1
      if key < target then
        bsearchGo l target fuel (mid + 1) right
      else if target < key then
        bsearchGo l target fuel left mid
      else
        .found mid
    else
      .notFound left

/-- Embeds slice binary_search_by_key on a history, searching by time. -/
def bsearchByTime (l : List (Nat × SignalLevel)) (target : Nat) : SearchResult :=
  bsearchGo l target (l.length + 1) 0 l.length

/-- Embeds Signal::value_at: binary search the history for the latest
transition at or before the given time; before the first transition the code
returns the inversion of the first recorded level (or, with empty history,
the current level). -/
def Signal.value_at (s : Signal) (time : Nat) : SignalLevel :=
  match bsearchByTime s.history time with
  | .found idx => (s.history.getD idx (0, SignalLevel.low)).2
  | .notFound 0 =>
    match s.history.head? with
    | some (_, firstVal) => firstVal.invert
    | none => s.current
  | .notFound idx => (s.history.getD (idx - 1) (0, SignalLevel.low)).2

example : (Signal.new "T" .low).value_at 5 = .low := by decide
example :
    (((Signal.new "T" .low).update 100 .high).update 200 .low).value_at 50 = .low := by
  decide
example :
    (((Signal.new "T" .low).update 100 .high).update 200 .low).value_at 150 = .high := by
  decide

/-! DataBus: mcs4-bus/src/data_bus.rs. -/

/-- Embeds struct BusDriver. -/
structure BusDriver where
  name : String
  active : Bool
  value : Nat
deriving DecidableEq

/-- Embeds struct DataBus: four lines plus the registered drivers. -/
structure DataBus where
  lines : List Signal
  drivers : List BusDriver
deriving DecidableEq

/-- Embeds DataBus::new. -/
def DataBus.new : DataBus :=
  ⟨[Signal.new "D0" .z, Signal.new "D1" .z, Signal.new "D2" .z, Signal.new "D3" .z], []⟩

/-- Embeds DataBus::add_driver; returns the driver id with the new bus. -/
def DataBus.add_driver (bus : DataBus) (name : String) : Nat × DataBus :=
  (bus.drivers.length, { bus with drivers := bus.drivers ++ [⟨name, false, 0⟩] })

/-- Updates the entry of an association-free list at one index, leaving the
list unchanged when the index is out of range (the Rust get_mut pattern). -/
def listModify {α : Type} (l : List α) (i : Nat) (f : α → α) : List α :=
  match l.get? i with
  | some v => l.set i (f v)
  | none => l

/-- Embeds DataBus::resolve: Z when no driver is active, X on disagreeing
active drivers, otherwise the unanimous nibble bit by bit. -/
def DataBus.resolve (bus : DataBus) (time : Nat) : DataBus :=
  let active := bus.drivers.filter (fun d => d.active)
  match active with
  | [] => { bus with lines := bus.lines.map (fun l => l.update time .z) }
  | first :: _ =>
    if active.length > 1 ∧ active.any (fun d => d.value ≠ first.value) then
      { bus with lines := bus.lines.map (fun l => l.update time .x) }
    else
      { bus with lines := (bus.lines.enum.map fun p =>
          p.2.update time (if (first.value >>> p.1) &&& 1 = 1 then .high else .low)) }

/-- Embeds DataBus::drive: activate a driver with a nibble value, then
resolve. -/
def DataBus.drive (bus : DataBus) (driver_id : Nat) (value : Nat) (time : Nat) : DataBus :=
  let drivers :=
    listModify bus.drivers driver_id (fun d => { d with active := true, value := value &&& 0x0F })
  DataBus.resolve { bus with drivers := drivers } time

/-- Embeds DataBus::release. -/
def DataBus.release (bus : DataBus) (driver_id : Nat) (time : Nat) : DataBus :=
  let drivers := listModify bus.drivers driver_id (fun d => { d with active := false })
  DataBus.resolve { bus with drivers := drivers } time

/-- Embeds DataBus::read: collect a nibble from the lines, LSB = line 0. -/
def DataBus.read (bus : DataBus) : Nat :=
  bus.lines.enum.foldl
    (fun value p => if p.2.current = .high then value ||| (1 <<< p.1) else value) 0

/-- Embeds DataBus::is_valid. -/
def DataBus.is_valid (bus : DataBus) : Bool :=
  bus.lines.all (fun l => l.current.is_defined)

/-- Embeds DataBus::has_contention. -/
def DataBus.has_contention (bus : DataBus) : Bool :=
  bus.lines.any (fun l => l.current = .x)

/-- Modelled from the spec: DataBus::write is called by the CPU (i4004/mod.rs),
the 4001 and the 4002 but its definition is missing from src/.  Following
section 4.4 resolution rule 3 and the read contract (LSB = line 0), it drives
each line High or Low from the nibble bits; the call sites pass no timestamp,
so transitions are recorded at time 0. -/
def DataBus.write (bus : DataBus) (value : Nat) : DataBus :=
  { bus with lines := (bus.lines.enum.map fun p =>
      p.2.update 0 (if (value >>> p.1) &&& 1 = 1 then .high else .low)) }

/-! ControlSignals: mcs4-bus/src/control.rs. -/

/-- Embeds struct ControlSignals: SYNC, four CM-ROM lines, four CM-RAM lines,
TEST, RESET, and the optional 4040 signals. -/
structure ControlSignals where
  sync : Signal
  cm_rom : List Signal
  cm_ram : List Signal
  test : Signal
  reset : Signal
  stp : Option Signal
  stop : Option Signal
  int : Option Signal
deriving DecidableEq

/-- Embeds ControlSignals::mcs4. -/
def ControlSignals.mcs4 : ControlSignals where
  sync := Signal.new "SYNC" .low
  cm_rom := [Signal.new "CM-ROM0" .low, Signal.new "CM-ROM1" .low,
             Signal.new "CM-ROM2" .low, Signal.new "CM-ROM3" .low]
  cm_ram := [Signal.new "CM-RAM0" .low, Signal.new "CM-RAM1" .low,
             Signal.new "CM-RAM2" .low, Signal.new "CM-RAM3" .low]
  test := Signal.new "TEST" .high
  reset := Signal.new "RESET" .low
  stp := none
  stop := none
  int := none

/-- Embeds ControlSignals::assert_sync. -/
def ControlSignals.assert_sync (c : ControlSignals) (time : Nat) : ControlSignals :=
  { c with sync := c.sync.update time .high }

/-- Embeds ControlSignals::deassert_sync. -/
def ControlSignals.deassert_sync (c : ControlSignals) (time : Nat) : ControlSignals :=
  { c with sync := c.sync.update time .low }

/-- Embeds ControlSignals::select_rom: set the four CM-ROM lines to the bank
bits. -/
def ControlSignals.select_rom (c : ControlSignals) (bank : Nat) (time : Nat) : ControlSignals :=
  let bank := bank &&& 0x0F
  { c with cm_rom := (c.cm_rom.enum.map fun p =>
      p.2.update time (if (bank >>> p.1) &&& 1 = 1 then .high else .low)) }

/-- Embeds ControlSignals::select_ram. -/
def ControlSignals.select_ram (c : ControlSignals) (bank : Nat) (time : Nat) : ControlSignals :=
  let bank := bank &&& 0x0F
  { c with cm_ram := (c.cm_ram.enum.map fun p =>
      p.2.update time (if (bank >>> p.1) &&& 1 = 1 then .high else .low)) }

/-- Embeds ControlSignals::selected_rom. -/
def ControlSignals.selected_rom (c : ControlSignals) : Option Nat :=
  let bank := c.cm_rom.enum.foldl
    (fun bank p => if p.2.current = .high then bank ||| (1 <<< p.1) else bank) 0
  let any_selected := c.cm_rom.any (fun s => s.current = .high)
  if any_selected then some bank else none

/-- Embeds ControlSignals::cm_rom (the 4-bit value getter; renamed because the
field keeps the name). -/
def ControlSignals.cm_rom_value (c : ControlSignals) : Nat :=
  c.cm_rom.enum.foldl
    (fun value p => if p.2.current = .high then value ||| (1 <<< p.1) else value) 0

/-- Embeds ControlSignals::cm_ram (the 4-bit value getter). -/
def ControlSignals.cm_ram_value (c : ControlSignals) : Nat :=
  c.cm_ram.enum.foldl
    (fun value p => if p.2.current = .high then value ||| (1 <<< p.1) else value) 0

/-- Embeds ControlSignals::is_io_write (approximated in the source from ROM
selection). -/
def ControlSignals.is_io_write (c : ControlSignals) : Bool :=
  c.selected_rom.isSome

/-- Embeds ControlSignals::is_io_read. -/
def ControlSignals.is_io_read (c : ControlSignals) : Bool :=
  c.selected_rom.isSome

/-- Embeds ControlSignals::test_active (TEST is active low). -/
def ControlSignals.test_active (c : ControlSignals) : Bool :=
  c.test.current = .low

/-! Two-phase clock: mcs4-bus/src/clock.rs, with the timing constants from
mcs4-core/src/timing.rs. -/

/-- Embeds timing.rs NANOSECOND (picoseconds per nanosecond). -/
def NANOSECOND : Nat := 1000

/-- Embeds clock_spec::TCY_TYP. -/
def TCY_TYP : Nat := 1350 * NANOSECOND

/-- Embeds clock_spec::T0PW_MIN. -/
def T0PW_MIN : Nat := 380 * NANOSECOND

/-- Embeds clock_spec::T0D1_MIN. -/
def T0D1_MIN : Nat := 400 * NANOSECOND

/-- Embeds clock_spec::T0D2_MIN. -/
def T0D2_MIN : Nat := 150 * NANOSECOND

/-- Embeds clock_spec::T0R. -/
def T0R : Nat := 50 * NANOSECOND

/-- Embeds clock_spec::T0F. -/
def T0F : Nat := 50 * NANOSECOND

/-- Embeds struct ClockConfig. -/
structure ClockConfig where
  period : Nat
  phi1_width : Nat
  phi2_width : Nat
  phi1_to_phi2_delay : Nat
  phi2_to_phi1_delay : Nat
  rise_time : Nat
  fall_time : Nat
deriving DecidableEq

/-- Embeds the Default impl for ClockConfig (typical 740 kHz clock). -/
def ClockConfig.default : ClockConfig :=
  ⟨TCY_TYP, T0PW_MIN, T0PW_MIN, T0D1_MIN, T0D2_MIN, T0R, T0F⟩

/-- Embeds enum ClockEdge. -/
inductive ClockEdge
  | none
  | phi1Rising
  | phi1Falling
  | phi2Rising
  | phi2Falling
deriving DecidableEq

/-- Embeds struct TwoPhaseClockTwoPhaseClock (the duplicated name is the
name in the source). -/
structure TwoPhaseClockTwoPhaseClock where
  config : ClockConfig
  phi1 : Signal
  phi2 : Signal
  phase_time : Nat
  cycle_count : Nat
deriving DecidableEq

/-- Embeds TwoPhaseClockTwoPhaseClock::new. -/
def TwoPhaseClockTwoPhaseClock.new (config : ClockConfig) : TwoPhaseClockTwoPhaseClock :=
  ⟨config, Signal.new "PHI1" .low, Signal.new "PHI2" .low, 0, 0⟩

/-- Embeds TwoPhaseClockTwoPhaseClock::default_config. -/
def TwoPhaseClockTwoPhaseClock.default_config : TwoPhaseClockTwoPhaseClock :=
  TwoPhaseClockTwoPhaseClock.new ClockConfig.default

/-- Embeds TwoPhaseClockTwoPhaseClock::phi1_high. -/
def TwoPhaseClockTwoPhaseClock.phi1_high (c : TwoPhaseClockTwoPhaseClock) : Bool :=
  c.phi1.current = .high

/-- Embeds TwoPhaseClockTwoPhaseClock::phi2_high. -/
def TwoPhaseClockTwoPhaseClock.phi2_high (c : TwoPhaseClockTwoPhaseClock) : Bool :=
  c.phi2.current = .high

/-- Embeds TwoPhaseClockTwoPhaseClock::tick: advance the step-mode clock by
one edge, comparing phase_time against the edge offsets in order. -/
def TwoPhaseClockTwoPhaseClock.tick (c : TwoPhaseClockTwoPhaseClock) (current_time : Nat) :
    TwoPhaseClockTwoPhaseClock × ClockEdge :=
  let t := c.phase_time
  if t = 0 then
    ({ c with phi1 := c.phi1.update current_time .high,
              phase_time := c.phase_time + c.config.phi1_width }, .phi1Rising)
  else if t = c.config.phi1_width then
    ({ c with phi1 := c.phi1.update current_time .low,
              phase_time := c.phase_time + c.config.phi1_to_phi2_delay }, .phi1Falling)
  else
    let phi2_start := c.config.phi1_width + c.config.phi1_to_phi2_delay
    if t = phi2_start then
      ({ c with phi2 := c.phi2.update current_time .high,
                phase_time := c.phase_time + c.config.phi2_width }, .phi2Rising)
    else
      let phi2_end := phi2_start + c.config.phi2_width
      if t = phi2_end then
        ({ c with phi2 := c.phi2.update current_time .low,
                  phase_time := 0,
                  cycle_count := c.cycle_count + 1 }, .phi2Falling)
      else
        (c, .none)

/-- Embeds TwoPhaseClockTwoPhaseClock::reset. -/
def TwoPhaseClockTwoPhaseClock.reset (c : TwoPhaseClockTwoPhaseClock) :
    TwoPhaseClockTwoPhaseClock :=
  { c with phi1 := Signal.new "PHI1" .low, phi2 := Signal.new "PHI2" .low,
           phase_time := 0, cycle_count := 0 }

/-- Runs tick over a list of current-time arguments (the finite call sequence
of the step mode). -/
def TwoPhaseClockTwoPhaseClock.runTicks (c : TwoPhaseClockTwoPhaseClock) :
    List Nat → TwoPhaseClockTwoPhaseClock
  | [] => c
  | t :: ts => (c.tick t).1.runTicks ts

/-- One clock event of schedule mode: time, target (false = PHI1, true = PHI2)
and level.  Mirrors the sim.schedule calls of
TwoPhaseClockTwoPhaseClock::schedule_events. -/
structure ClockEvent where
  time : Nat
  isPhi2 : Bool
  level : SignalLevel
deriving DecidableEq

/-- The cycle loop of schedule_events: for each period, PHI1 rises at t and
falls after phi1_width; PHI2 rises after phi1_to_phi2_delay and falls after
phi2_width; the next period starts after phi2_to_phi1_delay.  The list holds
the events in the order the Rust code passes them to sim.schedule. -/
def scheduleEventsAux (cfg : ClockConfig) : Nat → Nat → List ClockEvent
  | _, 0 => []
  | t, n + 1 =>
    ⟨t, false, .high⟩ ::
    ⟨t + cfg.phi1_width, false, .low⟩ ::
    ⟨t + cfg.phi1_width + cfg.phi1_to_phi2_delay, true, .high⟩ ::
    ⟨t + cfg.phi1_width + cfg.phi1_to_phi2_delay + cfg.phi2_width, true, .low⟩ ::
    scheduleEventsAux cfg
      (t + cfg.phi1_width + cfg.phi1_to_phi2_delay + cfg.phi2_width + cfg.phi2_to_phi1_delay) n

/-- Embeds TwoPhaseClockTwoPhaseClock::schedule_events as the ordered list of
scheduled clock events for num_cycles periods from start_time. -/
def schedule_events (cfg : ClockConfig) (start_time : Nat) (num_cycles : Nat) :
    List ClockEvent :=
  scheduleEventsAux cfg start_time num_cycles

/-- Applies a prefix of the scheduled events to the (PHI1, PHI2) levels, in
schedule order. -/
def applySchedule : (SignalLevel × SignalLevel) → List ClockEvent →
    SignalLevel × SignalLevel
  | st, [] => st
  | st, e :: rest =>
    applySchedule (if e.isPhi2 then (st.1, e.level) else (e.level, st.2)) rest

/-! Bus cycle: mcs4-bus/src/cycle.rs. -/

/-- Embeds enum BusCycle: the 8 phases of a machine cycle. -/
inductive BusCycle
  | a1
  | a2
  | a3
  | m1
  | m2
  | x1
  | x2
  | x3
deriving DecidableEq

/-- Embeds BusCycle::next. -/
def BusCycle.next : BusCycle → BusCycle
  | .a1 => .a2
  | .a2 => .a3
  | .a3 => .m1
  | .m1 => .m2
  | .m2 => .x1
  | .x1 => .x2
  | .x2 => .x3
  | .x3 => .a1

/-- Embeds enum MachineState. -/
inductive MachineState
  | fetch1
  | fetch2
  | execute
  | halted
  | interruptAck
deriving DecidableEq

/-- Embeds struct CycleState. -/
structure CycleState where
  phase : BusCycle
  state : MachineState
  cycle_count : Nat
  instruction_count : Nat
  two_cycle : Bool
  second_cycle : Bool
deriving DecidableEq

/-- Embeds CycleState::new. -/
def CycleState.new : CycleState :=
  ⟨.a1, .fetch1, 0, 0, false, false⟩

/-- Embeds CycleState::advance: step the phase, and on the X3 rollover update
the cycle count and the machine state. -/
def CycleState.advance (c : CycleState) : CycleState :=
  let prev_phase := c.phase
  let c := { c with phase := c.phase.next }
  if prev_phase = .x3 then
    let c := { c with cycle_count := c.cycle_count + 1 }
    match c.state with
    | .fetch1 =>
      if c.two_cycle then
        { c with state := .fetch2, second_cycle := true }
      else
        { c with instruction_count := c.instruction_count + 1, two_cycle := false }
    | .fetch2 =>
      { c with state := .fetch1, instruction_count := c.instruction_count + 1,
               two_cycle := false, second_cycle := false }
    | .execute => { c with state := .fetch1 }
    | .halted => c
    | .interruptAck => c
  else
    c

/-! 4004 ALU: mcs4-chips/src/i4004/alu.rs.  The u8 fields become Nat; the
wrapping u8 operations carry an explicit mod 256. -/

/-- Embeds struct Alu. -/
structure Alu where
  acc : Nat
  carry : Bool
  temp : Nat
deriving DecidableEq

/-- Embeds Alu::new. -/
def Alu.new : Alu := ⟨0, false, 0⟩

/-- Embeds Alu::accumulator. -/
def Alu.accumulator (a : Alu) : Nat := a.acc &&& 0x0F

/-- Embeds Alu::set_accumulator. -/
def Alu.set_accumulator (a : Alu) (value : Nat) : Alu := { a with acc := value &&& 0x0F }

/-- Embeds Alu::set_carry. -/
def Alu.set_carry (a : Alu) (carry : Bool) : Alu := { a with carry := carry }

/-- Embeds Alu::clb. -/
def Alu.clb (a : Alu) : Alu := { a with acc := 0, carry := false }

/-- Embeds Alu::cma (bitwise not of the u8 accumulator, masked). -/
def Alu.cma (a : Alu) : Alu := { a with acc := (a.acc ^^^ 0xFF) &&& 0x0F }

/-- Embeds Alu::cmc. -/
def Alu.cmc (a : Alu) : Alu := { a with carry := !a.carry }

/-- Embeds Alu::stc. -/
def Alu.stc (a : Alu) : Alu := { a with carry := true }

/-- Embeds Alu::iac (wrapping u8 add of 1). -/
def Alu.iac (a : Alu) : Alu :=
  let result := (a.acc + 1) % 256
  { a with carry := result > 0x0F, acc := result &&& 0x0F }

/-- Embeds Alu::dac (wrapping u8 subtract of 1); carry is set when the
pre-decrement accumulator was non-zero. -/
def Alu.dac (a : Alu) : Alu :=
  let result := (a.acc + 255) % 256
  { a with carry := a.acc ≠ 0, acc := result &&& 0x0F }

/-- Embeds Alu::ral. -/
def Alu.ral (a : Alu) : Alu :=
  let new_carry := a.acc &&& 0x08 ≠ 0
  { a with acc := ((a.acc <<< 1) ||| (if a.carry then 1 else 0)) &&& 0x0F,
           carry := new_carry }

/-- Embeds Alu::rar. -/
def Alu.rar (a : Alu) : Alu :=
  let new_carry := a.acc &&& 0x01 ≠ 0
  { a with acc := ((a.acc >>> 1) ||| ((if a.carry then 1 else 0) <<< 3)) &&& 0x0F,
           carry := new_carry }

/-- Embeds Alu::add: 4-bit add with carry in and carry out. -/
def Alu.add (a : Alu) (value : Nat) : Alu :=
  let result := a.acc + value + (if a.carry then 1 else 0)
  { a with carry := result > 0x0F, acc := result &&& 0x0F }

/-- Embeds Alu::sub: acc + not value + carry, 4004 borrow convention. -/
def Alu.sub (a : Alu) (value : Nat) : Alu :=
  let complement := (value ^^^ 0xFF) &&& 0x0F
  let result := a.acc + complement + (if a.carry then 1 else 0)
  { a with carry := result > 0x0F, acc := result &&& 0x0F }

/-- Embeds Alu::load. -/
def Alu.load (a : Alu) (value : Nat) : Alu := { a with acc := value &&& 0x0F }

/-- Embeds Alu::xch: returns the old accumulator with the new state. -/
def Alu.xch (a : Alu) (value : Nat) : Nat × Alu :=
  (a.acc, { a with acc := value &&& 0x0F })

/-- Embeds Alu::daa: add 6 when carry is set or the accumulator exceeds 9;
carry is set on overflow but never cleared. -/
def Alu.daa (a : Alu) : Alu :=
  if a.carry ∨ a.acc > 9 then
    let result := a.acc + 6
    let carry := if result > 0x0F then true else a.carry
    { a with carry := carry, acc := result &&& 0x0F }
  else a

/-- Embeds Alu::tcc. -/
def Alu.tcc (a : Alu) : Alu :=
  { a with acc := if a.carry then 1 else 0, carry := false }

/-- Embeds Alu::kbp: one-hot keyboard pattern to BCD. -/
def Alu.kbp (a : Alu) : Alu :=
  { a with acc :=
      match a.acc with
      | 0x00 => 0x00
      | 0x01 => 0x01
      | 0x02 => 0x02
      | 0x04 => 0x03
      | 0x08 => 0x04
      | _ => 0x0F }

/-- Embeds Alu::carry (the getter). -/
def Alu.carry_flag (a : Alu) : Bool := a.carry

/-! 4004 register file: mcs4-chips/src/i4004/registers.rs. -/

/-- Embeds struct Registers: 16 index registers, the 12-bit program counter
and the 3-level circular stack with its pointer. -/
structure Registers where
  index : List Nat
  pc : Nat
  stack : List Nat
  sp : Nat
deriving DecidableEq

/-- Embeds Registers::new. -/
def Registers.new : Registers :=
  ⟨List.replicate 16 0, 0, List.replicate 3 0, 0⟩

/-- Embeds Registers::pc (the masked getter; renamed because the field keeps
the name). -/
def Registers.pc_value (r : Registers) : Nat := r.pc &&& 0x0FFF

/-- Embeds Registers::set_pc. -/
def Registers.set_pc (r : Registers) (addr : Nat) : Registers :=
  { r with pc := addr &&& 0x0FFF }

/-- Embeds Registers::increment_pc. -/
def Registers.increment_pc (r : Registers) : Registers :=
  { r with pc := (r.pc + 1) &&& 0x0FFF }

/-- Embeds Registers::get_r. -/
def Registers.get_r (r : Registers) (i : Nat) : Nat :=
  (r.index.getD (i &&& 0x0F) 0) &&& 0x0F

/-- Embeds Registers::set_r. -/
def Registers.set_r (r : Registers) (i : Nat) (value : Nat) : Registers :=
  { r with index := r.index.set (i &&& 0x0F) (value &&& 0x0F) }

/-- Embeds Registers::get_pair (even register is the high nibble). -/
def Registers.get_pair (r : Registers) (pair : Nat) : Nat :=
  let base := (pair &&& 0x07) * 2
  let high := (r.index.getD base 0) &&& 0x0F
  let low := (r.index.getD (base + 1) 0) &&& 0x0F
  (high <<< 4) ||| low

/-- Embeds Registers::set_pair. -/
def Registers.set_pair (r : Registers) (pair : Nat) (value : Nat) : Registers :=
  let base := (pair &&& 0x07) * 2
  { r with index := (r.index.set base ((value >>> 4) &&& 0x0F)).set (base + 1) (value &&& 0x0F) }

/-- Embeds Registers::call: store the PC in the stack slot at the pointer,
advance the pointer mod 3, load the new 12-bit PC. -/
def Registers.call (r : Registers) (addr : Nat) : Registers :=
  { r with stack := r.stack.set r.sp r.pc,
           sp := (r.sp + 1) % 3,
           pc := addr &&& 0x0FFF }

/-- Embeds Registers::ret: step the pointer backward mod 3 and read. -/
def Registers.ret (r : Registers) : Registers :=
  let sp := if r.sp = 0 then 2 else r.sp - 1
  { r with sp := sp, pc := r.stack.getD sp 0 }

/-- Embeds Registers::inc_r: increment one register, reporting a wrap to 0. -/
def Registers.inc_r (r : Registers) (i : Nat) : Registers × Bool :=
  let value := ((r.index.getD (i &&& 0x0F) 0) + 1) &&& 0x0F
  ({ r with index := r.index.set (i &&& 0x0F) value }, value = 0)

/-! Instruction set and decoder: mcs4-chips/src/i4004/instruction_decode.rs. -/

/-- Embeds enum Instruction: all decoded 4004 instructions with their
operands. -/
inductive Instruction
  | nop
  | jcn (condition : Nat) (addr_low : Nat)
  | fim (pair : Nat) (data : Nat)
  | src (pair : Nat)
  | fin (pair : Nat)
  | jin (pair : Nat)
  | jun (addr_high : Nat) (addr_low : Nat)
  | jms (addr_high : Nat) (addr_low : Nat)
  | isz (reg : Nat) (addr_low : Nat)
  | inc (reg : Nat)
  | add (reg : Nat)
  | sub (reg : Nat)
  | ld (reg : Nat)
  | xch (reg : Nat)
  | bbl (data : Nat)
  | ldm (data : Nat)
  | wrm
  | wmp
  | wrr
  | wpm
  | wr0
  | wr1
  | wr2
  | wr3
  | sbm
  | rdm
  | rdr
  | adm
  | rd0
  | rd1
  | rd2
  | rd3
  | clb
  | clc
  | iac
  | cmc
  | cma
  | ral
  | rar
  | tcc
  | dac
  | tcs
  | stc
  | daa
  | kbp
  | dcl
  | invalid (opcode : Nat)
deriving DecidableEq

/-- Embeds Instruction::length. -/
def Instruction.length : Instruction → Nat
  | .jcn _ _ => 2
  | .fim _ _ => 2
  | .jun _ _ => 2
  | .jms _ _ => 2
  | .isz _ _ => 2
  | _ => 1

/-- Embeds Instruction::cycles. -/
def Instruction.cycles : Instruction → Nat
  | .jcn _ _ => 2
  | .fim _ _ => 2
  | .jun _ _ => 2
  | .jms _ _ => 2
  | .isz _ _ => 2
  | .fin _ => 2
  | .jin _ => 2
  | _ => 1

/-- Embeds struct InstructionDecoder. -/
structure InstructionDecoder where
  opr : Nat
  opa : Nat
  two_byte : Bool
  operand : Nat
  instruction : Option Instruction
deriving DecidableEq

/-- Embeds InstructionDecoder::new (Default). -/
def InstructionDecoder.new : InstructionDecoder := ⟨0, 0, false, 0, none⟩

/-- Embeds InstructionDecoder::decode_single_byte. -/
def InstructionDecoder.decode_single_byte (d : InstructionDecoder) : Instruction :=
  match d.opr with
  | 0x0 => .nop
  | 0x2 =>
    if d.opa &&& 0x01 = 1 then .src (d.opa >>> 1)
    else .invalid ((d.opr <<< 4) ||| d.opa)
  | 0x3 =>
    if d.opa &&& 0x01 = 0 then .fin (d.opa >>> 1)
    else .jin (d.opa >>> 1)
  | 0x6 => .inc d.opa
  | 0x8 => .add d.opa
  | 0x9 => .sub d.opa
  | 0xA => .ld d.opa
  | 0xB => .xch d.opa
  | 0xC => .bbl d.opa
  | 0xD => .ldm d.opa
  | 0xE =>
    match d.opa with
    | 0x0 => .wrm
    | 0x1 => .wmp
    | 0x2 => .wrr
    | 0x3 => .wpm
    | 0x4 => .wr0
    | 0x5 => .wr1
    | 0x6 => .wr2
    | 0x7 => .wr3
    | 0x8 => .sbm
    | 0x9 => .rdm
    | 0xA => .rdr
    | 0xB => .adm
    | 0xC => .rd0
    | 0xD => .rd1
    | 0xE => .rd2
    | 0xF => .rd3
    | _ => .invalid ((d.opr <<< 4) ||| d.opa)
  | 0xF =>
    match d.opa with
    | 0x0 => .clb
    | 0x1 => .clc
    | 0x2 => .iac
    | 0x3 => .cmc
    | 0x4 => .cma
    | 0x5 => .ral
    | 0x6 => .rar
    | 0x7 => .tcc
    | 0x8 => .dac
    | 0x9 => .tcs
    | 0xA => .stc
    | 0xB => .daa
    | 0xC => .kbp
    | 0xD => .dcl
    | _ => .invalid ((d.opr <<< 4) ||| d.opa)
  | _ => .invalid ((d.opr <<< 4) ||| d.opa)

/-- Embeds InstructionDecoder::decode_two_byte. -/
def InstructionDecoder.decode_two_byte (d : InstructionDecoder) : Instruction :=
  match d.opr with
  | 0x1 => .jcn d.opa d.operand
  | 0x2 => .fim (d.opa >>> 1) d.operand
  | 0x4 => .jun d.opa d.operand
  | 0x5 => .jms d.opa d.operand
  | 0x7 => .isz d.opa d.operand
  | _ => .invalid ((d.opr <<< 4) ||| d.opa)

/-- Embeds InstructionDecoder::decode_first: split OPR and OPA, detect the
two-byte families, and decode single-byte instructions immediately. -/
def InstructionDecoder.decode_first (d : InstructionDecoder) (byte : Nat) : InstructionDecoder :=
  let opr := (byte >>> 4) &&& 0x0F
  let opa := byte &&& 0x0F
  let two_byte :=
    (opr == 0x1 || opr == 0x2 || opr == 0x4 || opr == 0x5 || opr == 0x7)
      && (opr != 0x2 || opa &&& 0x01 == 0)
      && (opr != 0x3)
  let d := { d with opr := opr, opa := opa, operand := 0, two_byte := two_byte }
  if ¬two_byte then
    { d with instruction := some d.decode_single_byte }
  else
    { d with instruction := none }

/-- Embeds InstructionDecoder::decode_second. -/
def InstructionDecoder.decode_second (d : InstructionDecoder) (byte : Nat) : InstructionDecoder :=
  let d := { d with operand := byte }
  { d with instruction := some d.decode_two_byte }

/-- Embeds InstructionDecoder::get_instruction. -/
def InstructionDecoder.get_instruction (d : InstructionDecoder) : Option Instruction :=
  d.instruction

/-- Embeds InstructionDecoder::needs_second_byte. -/
def InstructionDecoder.needs_second_byte (d : InstructionDecoder) : Bool :=
  d.two_byte && d.instruction.isNone

/-! 4004 CPU: mcs4-chips/src/i4004/mod.rs and timing_io.rs. -/

/-- Embeds struct TimingIo (a placeholder holding one byte of state). -/
structure TimingIo where
  state : Nat
deriving DecidableEq

/-- Embeds TimingIo::new. -/
def TimingIo.new : TimingIo := ⟨0⟩

/-- Embeds struct I4004. -/
structure I4004 where
  alu : Alu
  registers : Registers
  decoder : InstructionDecoder
  timing : TimingIo
  cycle : CycleState
  instruction_byte : Nat
  operand : Nat
  ram_address : Nat
  ram_chip : Nat
  test_pin : Bool
  io_data : Nat
deriving DecidableEq

/-- Embeds I4004::new. -/
def I4004.new : I4004 :=
  ⟨Alu.new, Registers.new, InstructionDecoder.new, TimingIo.new, CycleState.new,
   0, 0, 0, 0, false, 0⟩

/-- Embeds I4004::set_test_pin. -/
def I4004.set_test_pin (c : I4004) (state : Bool) : I4004 := { c with test_pin := state }

/-- Embeds I4004::pc. -/
def I4004.pc (c : I4004) : Nat := c.registers.pc_value

/-- Embeds I4004::accumulator. -/
def I4004.accumulator (c : I4004) : Nat := c.alu.accumulator

/-- Embeds I4004::carry. -/
def I4004.carry (c : I4004) : Bool := c.alu.carry

/-- Embeds I4004::evaluate_condition for JCN. -/
def I4004.evaluate_condition (c : I4004) (condition : Nat) : Bool :=
  let invert := condition &&& 0x08 ≠ 0
  let test_acc_zero := condition &&& 0x04 ≠ 0
  let test_carry := condition &&& 0x02 ≠ 0
  let test_pin := condition &&& 0x01 ≠ 0
  let result := false
  let result := if test_acc_zero ∧ c.alu.accumulator = 0 then true else result
  let result := if test_carry ∧ c.alu.carry then true else result
  let result := if test_pin ∧ c.test_pin then true else result
  if invert then !result else result

/-- Embeds I4004::execute: run one decoded instruction against the CPU state
and the data bus. -/
def I4004.execute (c : I4004) (instr : Instruction) (bus : DataBus) : I4004 × DataBus :=
  match instr with
  | .nop => (c, bus)
  | .jcn condition addr_low =>
    if c.evaluate_condition condition then
      let pc := c.registers.pc_value
      let new_pc := (pc &&& 0xF00) ||| addr_low
      ({ c with registers := c.registers.set_pc new_pc }, bus)
    else (c, bus)
  | .fim pair data =>
    ({ c with registers := c.registers.set_pair pair data }, bus)
  | .src pair =>
    let addr := c.registers.get_pair pair
    ({ c with ram_address := addr &&& 0x0F, ram_chip := (addr >>> 4) &&& 0x0F }, bus)
  | .fin _ =>
    let addr := c.registers.get_pair 0
    ({ c with io_data := addr }, bus)
  | .jin pair =>
    let addr := c.registers.get_pair pair
    let pc := c.registers.pc_value
    let new_pc := (pc &&& 0xF00) ||| addr
    ({ c with registers := c.registers.set_pc new_pc }, bus)
  | .jun addr_high addr_low =>
    let new_pc := (addr_high <<< 8) ||| addr_low
    ({ c with registers := c.registers.set_pc new_pc }, bus)
  | .jms addr_high addr_low =>
    let new_pc := (addr_high <<< 8) ||| addr_low
    ({ c with registers := c.registers.call new_pc }, bus)
  | .isz reg addr_low =>
    let (registers, wrapped) := c.registers.inc_r reg
    if ¬wrapped then
      let pc := registers.pc_value
      let new_pc := (pc &&& 0xF00) ||| addr_low
      ({ c with registers := registers.set_pc new_pc }, bus)
    else ({ c with registers := registers }, bus)
  | .inc reg =>
    ({ c with registers := (c.registers.inc_r reg).1 }, bus)
  | .add reg =>
    ({ c with alu := c.alu.add (c.registers.get_r reg) }, bus)
  | .sub reg =>
    ({ c with alu := c.alu.sub (c.registers.get_r reg) }, bus)
  | .ld reg =>
    ({ c with alu := c.alu.load (c.registers.get_r reg) }, bus)
  | .xch reg =>
    let reg_val := c.registers.get_r reg
    let (old_acc, alu) := c.alu.xch reg_val
    ({ c with alu := alu, registers := c.registers.set_r reg old_acc }, bus)
  | .bbl data =>
    ({ c with registers := c.registers.ret, alu := c.alu.load data }, bus)
  | .ldm data =>
    ({ c with alu := c.alu.load data }, bus)
  | .wrm => (c, bus.write c.alu.accumulator)
  | .wmp => (c, bus.write c.alu.accumulator)
  | .wrr => (c, bus.write c.alu.accumulator)
  | .wpm => (c, bus.write c.alu.accumulator)
  | .wr0 => (c, bus.write c.alu.accumulator)
  | .wr1 => (c, bus.write c.alu.accumulator)
  | .wr2 => (c, bus.write c.alu.accumulator)
  | .wr3 => (c, bus.write c.alu.accumulator)
  | .sbm => ({ c with alu := c.alu.sub bus.read }, bus)
  | .rdm => ({ c with alu := c.alu.load bus.read }, bus)
  | .rdr => ({ c with alu := c.alu.load bus.read }, bus)
  | .adm => ({ c with alu := c.alu.add bus.read }, bus)
  | .rd0 => ({ c with alu := c.alu.load bus.read }, bus)
  | .rd1 => ({ c with alu := c.alu.load bus.read }, bus)
  | .rd2 => ({ c with alu := c.alu.load bus.read }, bus)
  | .rd3 => ({ c with alu := c.alu.load bus.read }, bus)
  | .clb => ({ c with alu := c.alu.clb }, bus)
  | .clc => ({ c with alu := c.alu.set_carry false }, bus)
  | .iac => ({ c with alu := c.alu.iac }, bus)
  | .cmc => ({ c with alu := c.alu.cmc }, bus)
  | .cma => ({ c with alu := c.alu.cma }, bus)
  | .ral => ({ c with alu := c.alu.ral }, bus)
  | .rar => ({ c with alu := c.alu.rar }, bus)
  | .tcc => ({ c with alu := c.alu.tcc }, bus)
  | .dac => ({ c with alu := c.alu.dac }, bus)
  | .tcs =>
    let value := if c.alu.carry then 10 else 9
    ({ c with alu := (c.alu.set_accumulator value).set_carry false }, bus)
  | .stc => ({ c with alu := c.alu.stc }, bus)
  | .daa => ({ c with alu := c.alu.daa }, bus)
  | .kbp => ({ c with alu := c.alu.kbp }, bus)
  | .dcl => (c, bus)
  | .invalid _ => (c, bus)

/-- Embeds I4004::phase_a1: drive PC bits 0-3 and assert SYNC. -/
def I4004.phase_a1 (c : I4004) (bus : DataBus) (ctrl : ControlSignals) :
    I4004 × DataBus × ControlSignals :=
  let addr := c.registers.pc_value
  (c, bus.write (addr &&& 0x0F), ctrl.assert_sync 0)

/-- Embeds I4004::phase_a2: drive PC bits 4-7 and deassert SYNC. -/
def I4004.phase_a2 (c : I4004) (bus : DataBus) (ctrl : ControlSignals) :
    I4004 × DataBus × ControlSignals :=
  let addr := c.registers.pc_value
  (c, bus.write ((addr >>> 4) &&& 0x0F), ctrl.deassert_sync 0)

/-- Embeds I4004::phase_a3: drive PC bits 8-11 and select the ROM bank. -/
def I4004.phase_a3 (c : I4004) (bus : DataBus) (ctrl : ControlSignals) :
    I4004 × DataBus × ControlSignals :=
  let addr := c.registers.pc_value
  (c, bus.write ((addr >>> 8) &&& 0x0F), ctrl.select_rom ((addr >>> 8) &&& 0x0F) 0)

/-- Embeds I4004::phase_m1: read the instruction bits 0-3 from the bus. -/
def I4004.phase_m1 (c : I4004) (bus : DataBus) : I4004 :=
  let opa := bus.read
  { c with instruction_byte := (c.instruction_byte &&& 0xF0) ||| (opa &&& 0x0F) }

/-- Embeds I4004::phase_m2: read the instruction bits 4-7 from the bus. -/
def I4004.phase_m2 (c : I4004) (bus : DataBus) : I4004 :=
  let opr := bus.read
  { c with instruction_byte := (c.instruction_byte &&& 0x0F) ||| ((opr &&& 0x0F) <<< 4) }

/-- Embeds I4004::phase_x1: decode the first or second instruction byte. -/
def I4004.phase_x1 (c : I4004) : I4004 :=
  if c.cycle.second_cycle then
    { c with decoder := c.decoder.decode_second c.instruction_byte }
  else
    { c with decoder := c.decoder.decode_first c.instruction_byte }

/-- Embeds I4004::phase_x2: execute when no second byte is pending. -/
def I4004.phase_x2 (c : I4004) (bus : DataBus) : I4004 × DataBus :=
  if ¬c.decoder.needs_second_byte then
    match c.decoder.get_instruction with
    | some instr => c.execute instr bus
    | none => (c, bus)
  else (c, bus)

/-- Embeds I4004::phase_x3: increment the PC after execution and set up the
two-cycle flags; a no-op while the decoder holds no instruction. -/
def I4004.phase_x3 (c : I4004) : I4004 :=
  match c.decoder.get_instruction with
  | some instr =>
    let c :=
      if instr.length = 1 ∨ c.cycle.second_cycle then
        { c with registers := c.registers.increment_pc }
      else c
    if instr.length = 2 ∧ ¬c.cycle.second_cycle then
      { c with cycle := { c.cycle with two_cycle := true, second_cycle := true },
               registers := c.registers.increment_pc }
    else
      { c with cycle := { c.cycle with two_cycle := false, second_cycle := false } }
  | none => c

/-- Embeds I4004::tick: dispatch a bus phase, then advance the internal cycle
state. -/
def I4004.tick (c : I4004) (phase : BusCycle) (bus : DataBus) (ctrl : ControlSignals) :
    I4004 × DataBus × ControlSignals :=
  let (c, bus, ctrl) :=
    match phase with
    | .a1 => c.phase_a1 bus ctrl
    | .a2 => c.phase_a2 bus ctrl
    | .a3 => c.phase_a3 bus ctrl
    | .m1 => (c.phase_m1 bus, bus, ctrl)
    | .m2 => (c.phase_m2 bus, bus, ctrl)
    | .x1 => (c.phase_x1, bus, ctrl)
    | .x2 =>
      let (c, bus) := c.phase_x2 bus
      (c, bus, ctrl)
    | .x3 => (c.phase_x3, bus, ctrl)
  ({ c with cycle := c.cycle.advance }, bus, ctrl)

/-! 4001 ROM: mcs4-chips/src/i4001.rs. -/

/-- Embeds struct I4001. -/
structure I4001 where
  rom : List Nat
  io_output : Nat
  io_input : Nat
  chip_id : Nat
  address : Nat
  selected : Bool
  phase : BusCycle
deriving DecidableEq

/-- Embeds I4001::new. -/
def I4001.new (chip_id : Nat) : I4001 :=
  ⟨List.replicate 256 0, 0, 0, chip_id &&& 0x0F, 0, false, .a1⟩

/-- Embeds I4001::load: copy up to 256 bytes into the start of the ROM. -/
def I4001.load (r : I4001) (data : List Nat) : I4001 :=
  let len := min data.length 256
  { r with rom := data.take len ++ r.rom.drop len }

/-- Embeds I4001::read_direct. -/
def I4001.read_direct (r : I4001) (addr : Nat) : Nat :=
  r.rom.getD addr 0

/-- Embeds I4001::write_direct. -/
def I4001.write_direct (r : I4001) (addr : Nat) (value : Nat) : I4001 :=
  { r with rom := r.rom.set addr value }

/-- Embeds I4001::tick_bus: latch the address on A1/A2, resolve selection from
CM-ROM on A3, drive the instruction nibbles on M1/M2, and handle the I/O port
on X2/X3. -/
def I4001.tick_bus (r : I4001) (phase : BusCycle) (bus : DataBus) (ctrl : ControlSignals) :
    I4001 × DataBus :=
  let r := { r with phase := phase }
  match phase with
  | .a1 =>
    ({ r with address := (r.address &&& 0xF0) ||| (bus.read &&& 0x0F),
              selected := false }, bus)
  | .a2 =>
    ({ r with address := (r.address &&& 0x0F) ||| ((bus.read &&& 0x0F) <<< 4) }, bus)
  | .a3 =>
    ({ r with selected := ctrl.cm_rom_value = r.chip_id }, bus)
  | .m1 =>
    if r.selected then
      let data := r.rom.getD r.address 0
      (r, bus.write (data &&& 0x0F))
    else (r, bus)
  | .m2 =>
    if r.selected then
      let data := r.rom.getD r.address 0
      (r, bus.write ((data >>> 4) &&& 0x0F))
    else (r, bus)
  | .x1 => (r, bus)
  | .x2 =>
    if r.selected ∧ ctrl.is_io_write then
      ({ r with io_output := bus.read &&& 0x0F }, bus)
    else (r, bus)
  | .x3 =>
    if r.selected ∧ ctrl.is_io_read then
      (r, bus.write r.io_input)
    else (r, bus)

/-! 4002 RAM: mcs4-chips/src/i4002.rs. -/

/-- Embeds struct I4002. -/
structure I4002 where
  ram : List (List Nat)
  status : List Nat
  output : Nat
  chip_id : Nat
  bank_id : Nat
  selected_register : Nat
  selected_char : Nat
  selected : Bool
  phase : BusCycle
deriving DecidableEq

/-- Embeds I4002::new. -/
def I4002.new (chip_id : Nat) (bank_id : Nat) : I4002 :=
  ⟨List.replicate 4 (List.replicate 16 0), List.replicate 4 0, 0,
   chip_id &&& 0x03, bank_id &&& 0x03, 0, 0, false, .a1⟩

/-- Embeds I4002::read_direct. -/
def I4002.read_direct (r : I4002) (reg : Nat) (char_idx : Nat) : Nat :=
  ((r.ram.getD (reg &&& 3) []).getD (char_idx &&& 0x0F) 0) &&& 0x0F

/-- Embeds I4002::write_direct. -/
def I4002.write_direct (r : I4002) (reg : Nat) (char_idx : Nat) (value : Nat) : I4002 :=
  let row := (r.ram.getD (reg &&& 3) []).set (char_idx &&& 0x0F) (value &&& 0x0F)
  { r with ram := r.ram.set (reg &&& 3) row }

/-- Embeds I4002::set_src_address: latch register and character indices when
the chip-select bits match this chip. -/
def I4002.set_src_address (r : I4002) (chip : Nat) (reg : Nat) (char_addr : Nat) : I4002 :=
  if chip &&& 0x03 = r.chip_id then
    { r with selected_register := reg &&& 0x03, selected_char := char_addr &&& 0x0F }
  else r

/-- Embeds I4002::tick_bus: bank selection at X1, RAM write at X2, RAM read
at X3. -/
def I4002.tick_bus (r : I4002) (phase : BusCycle) (bus : DataBus) (ctrl : ControlSignals) :
    I4002 × DataBus :=
  let r := { r with phase := phase }
  let bank_selected := ctrl.cm_ram_value = r.bank_id
  match phase with
  | .a1 => (r, bus)
  | .a2 => (r, bus)
  | .a3 => (r, bus)
  | .m1 => (r, bus)
  | .m2 => (r, bus)
  | .x1 => ({ r with selected := bank_selected }, bus)
  | .x2 =>
    if r.selected ∧ ctrl.is_io_write then
      let value := bus.read &&& 0x0F
      let row := (r.ram.getD r.selected_register []).set r.selected_char value
      ({ r with ram := r.ram.set r.selected_register row }, bus)
    else (r, bus)
  | .x3 =>
    if r.selected ∧ ctrl.is_io_read then
      let value := (r.ram.getD r.selected_register []).getD r.selected_char 0
      (r, bus.write value)
    else (r, bus)

/-! 4040 call stack: mcs4-chips/src/i4040/stack.rs. -/

/-- Embeds struct CallStack: the 7-level bounded 4040 stack with a pointer to
the next free slot. -/
structure CallStack where
  stack : List Nat
  sp : Nat
deriving DecidableEq

/-- Embeds CallStack::new (Default). -/
def CallStack.new : CallStack := ⟨List.replicate 7 0, 0⟩

/-- Embeds CallStack::depth. -/
def CallStack.depth (s : CallStack) : Nat := s.sp

/-- Embeds CallStack::is_full. -/
def CallStack.is_full (s : CallStack) : Bool := s.sp ≥ 7

/-- Embeds CallStack::is_empty. -/
def CallStack.is_empty (s : CallStack) : Bool := s.sp = 0

/-- Embeds CallStack::push: fail with stack_overflow on a full stack,
otherwise store the 12-bit masked address and advance the pointer. -/
def CallStack.push (s : CallStack) (addr : Nat) : Except String CallStack :=
  if s.is_full then .error "stack_overflow"
  else .ok { s with stack := s.stack.set s.sp (addr &&& 0x0FFF), sp := s.sp + 1 }

/-- Embeds CallStack::pop: fail with stack_underflow on an empty stack,
otherwise step the pointer back and read the slot. -/
def CallStack.pop (s : CallStack) : Except String (Nat × CallStack) :=
  if s.is_empty then .error "stack_underflow"
  else .ok (s.stack.getD (s.sp - 1) 0, { s with sp := s.sp - 1 })

/-- Embeds CallStack::peek. -/
def CallStack.peek (s : CallStack) : Option Nat :=
  if s.is_empty then none else some (s.stack.getD (s.sp - 1) 0)

/-! MCS-4 system assembly: mcs4-system/src/mcs4.rs. -/

/-- Embeds struct Mcs4System. -/
structure Mcs4System where
  cpu : I4004
  rom : List I4001
  ram : List I4002
  bus : DataBus
  control : ControlSignals
  clock : TwoPhaseClockTwoPhaseClock
  cycle : CycleState
  total_cycles : Nat
  breakpoints : List Nat
deriving DecidableEq

/-- Embeds Mcs4System::minimal: one ROM, one RAM. -/
def Mcs4System.minimal : Mcs4System :=
  ⟨I4004.new, [I4001.new 0], [I4002.new 0 0], DataBus.new, ControlSignals.mcs4,
   TwoPhaseClockTwoPhaseClock.default_config, CycleState.new, 0, []⟩

/-- The loop of Mcs4System::load_rom: distribute the image in 256-byte chunks
over the ROM chips in order, discarding chunks beyond the last chip. -/
def romLoadChunks : List I4001 → List Nat → List I4001
  | [], _ => []
  | roms, [] => roms
  | r :: roms, data => r.load (data.take 256) :: romLoadChunks roms (data.drop 256)

/-- Embeds Mcs4System::load_rom. -/
def Mcs4System.load_rom (s : Mcs4System) (data : List Nat) : Mcs4System :=
  { s with rom := romLoadChunks s.rom data }

/-- Folds I4001::tick_bus over the ROM chips, threading the bus exactly as
the Rust for loop does. -/
def tickRoms (roms : List I4001) (phase : BusCycle) (bus : DataBus) (ctrl : ControlSignals) :
    List I4001 × DataBus :=
  match roms with
  | [] => ([], bus)
  | r :: rest =>
    let (r, bus) := r.tick_bus phase bus ctrl
    let (rest, bus) := tickRoms rest phase bus ctrl
    (r :: rest, bus)

/-- Folds I4002::tick_bus over the RAM chips. -/
def tickRams (rams : List I4002) (phase : BusCycle) (bus : DataBus) (ctrl : ControlSignals) :
    List I4002 × DataBus :=
  match rams with
  | [] => ([], bus)
  | r :: rest =>
    let (r, bus) := r.tick_bus phase bus ctrl
    let (rest, bus) := tickRams rest phase bus ctrl
    (r :: rest, bus)

/-- Embeds Mcs4System::step: dispatch one bus phase to CPU, ROM and RAM in
the phase-group order of the source, advance the cycle state, and count a
machine cycle when the phase rolls over to A1. -/
def Mcs4System.step (s : Mcs4System) : Mcs4System :=
  let phase := s.cycle.phase
  let s :=
    match phase with
    | .a1 | .a2 | .a3 =>
      let (cpu, bus, control) := s.cpu.tick phase s.bus s.control
      let (rom, bus) := tickRoms s.rom phase bus control
      let (ram, bus) := tickRams s.ram phase bus control
      { s with cpu := cpu, rom := rom, ram := ram, bus := bus, control := control }
    | .m1 | .m2 =>
      let (rom, bus) := tickRoms s.rom phase s.bus s.control
      let (cpu, bus, control) := s.cpu.tick phase bus s.control
      { s with cpu := cpu, rom := rom, bus := bus, control := control }
    | .x1 | .x2 | .x3 =>
      let (ram, bus) := tickRams s.ram phase s.bus s.control
      let (rom, bus) := tickRoms s.rom phase bus s.control
      let (cpu, bus, control) := s.cpu.tick phase bus s.control
      { s with cpu := cpu, rom := rom, ram := ram, bus := bus, control := control }
  let s := { s with cycle := s.cycle.advance }
  if s.cycle.phase = .a1 then
    { s with total_cycles := s.total_cycles + 1 }
  else s

/-- Iterates Mcs4System::step. -/
def Mcs4System.stepN (s : Mcs4System) : Nat → Mcs4System
  | 0 => s
  | n + 1 => s.step.stepN n

/-- Embeds Mcs4System::run_cycles: n machine cycles of 8 phases each. -/
def Mcs4System.run_cycles (s : Mcs4System) (cycles : Nat) : Mcs4System :=
  s.stepN (cycles * 8)

/-- Embeds Mcs4System::reset: fresh CPU, bus, control and cycle state, RAM
chips rebuilt with their ids; ROM contents are preserved. -/
def Mcs4System.reset (s : Mcs4System) : Mcs4System :=
  { s with cpu := I4004.new,
           bus := DataBus.new,
           control := ControlSignals.mcs4,
           cycle := CycleState.new,
           ram := s.ram.map (fun r => I4002.new r.chip_id r.bank_id) }

/-- Embeds Mcs4System::pc. -/
def Mcs4System.pc (s : Mcs4System) : Nat := s.cpu.pc

/-- Embeds Mcs4System::accumulator. -/
def Mcs4System.accumulator (s : Mcs4System) : Nat := s.cpu.accumulator

/-- Embeds Mcs4System::carry. -/
def Mcs4System.carry (s : Mcs4System) : Bool := s.cpu.carry

/-- Embeds Mcs4System::cycles. -/
def Mcs4System.cycles (s : Mcs4System) : Nat := s.total_cycles

/-- Embeds Mcs4System::phase. -/
def Mcs4System.phase (s : Mcs4System) : BusCycle := s.cycle.phase

/-- Embeds Mcs4System::register_pair. -/
def Mcs4System.register_pair (s : Mcs4System) (pair : Nat) : Nat :=
  s.cpu.registers.get_pair pair

/-- Embeds Mcs4System::register. -/
def Mcs4System.register (s : Mcs4System) (r : Nat) : Nat :=
  s.cpu.registers.get_r r

/-- Embeds Mcs4System::read_rom: find the chip whose id is the high address
nibble and read the offset within it. -/
def Mcs4System.read_rom (s : Mcs4System) (addr : Nat) : Option Nat :=
  let chip_id := (addr >>> 8) &&& 0x0F
  let chip_addr := addr &&& 0xFF
  (s.rom.find? (fun r => r.chip_id == chip_id)).map (fun r => r.read_direct chip_addr)

/-- Embeds Mcs4System::read_ram. -/
def Mcs4System.read_ram (s : Mcs4System) (bank : Nat) (chip : Nat) (reg : Nat)
    (char_addr : Nat) : Option Nat :=
  (s.ram.find? (fun r => r.bank_id == bank && r.chip_id == chip)).map
    (fun r => r.read_direct reg char_addr)

/-! Event scheduler: mcs4-core/src/simulator.rs.  The event queue is a
BinaryHeap of Reverse-wrapped events whose Ord compares the time field only;
the heap is embedded as its backing array (a list) with the push and pop
algorithms of the Rust standard library (sift_up and sift_down_to_bottom).
The hole optimization of the standard library is replaced by element swaps,
which produce the identical array: the hole always holds the sifted element. -/

/-- Embeds enum EventSource. -/
inductive EventSource
  | stimulus
  | gate (id : Nat)
  | clock
  | reset
deriving DecidableEq

/-- Embeds struct Event. -/
structure Event where
  time : Nat
  target : Nat
  value : SignalLevel
  source : EventSource
deriving DecidableEq

/-- Placeholder event for out-of-range list reads; such reads never happen on
the index ranges the heap algorithms use. -/
def Event.dflt : Event := ⟨0, 0, .low, .stimulus⟩

/-- The comparison the heap of Reverse-wrapped events performs: Reverse a is
at most Reverse b exactly when the time of b is at most the time of a (Ord
for Event compares only time). -/
def revLe (a b : Event) : Bool := b.time ≤ a.time

/-- Swaps two positions of the backing array. -/
def swapAt (l : List Event) (i j : Nat) : List Event :=
  let vi := l.getD i Event.dflt
  let vj := l.getD j Event.dflt
  (l.set i vj).set j vi

/-- Embeds BinaryHeap::sift_up: move the element at pos toward the root while
it is strictly greater than its parent.  Fuel only bounds the loop and is
always sufficient (the position strictly decreases). -/
def siftUpGo (start : Nat) : Nat → List Event → Nat → List Event
  | 0, l, _ => l
  | fuel + 1, l, pos =>
    if pos > start then
      let parent := (pos - 1) / 2
      if revLe (l.getD pos Event.dflt) (l.getD parent Event.dflt) then l
      else siftUpGo start fuel (swapAt l pos parent) parent
    else l

/-- Runs sift_up with sufficient fuel. -/
def siftUp (l : List Event) (start pos : Nat) : List Event :=
  siftUpGo start (pos + 1) l pos

/-- Embeds the descent loop of BinaryHeap::sift_down_to_bottom: walk the hole
to the bottom, always taking the greater child (ties take the right child),
then handle a final single child.  Returns the array and the final position. -/
def siftDownLoop (en : Nat) : Nat → List Event → Nat → List Event × Nat
  | 0, l, pos => (l, pos)
  | fuel + 1, l, pos =>
    let child := 2 * pos + 1
    if child ≤ en - 2 then
      let child :=
        if revLe (l.getD child Event.dflt) (l.getD (child + 1) Event.dflt) then child + 1
        else child
      siftDownLoop en fuel (swapAt l pos child) child
    else if child = en - 1 then (swapAt l pos child, child)
    else (l, pos)

/-- Embeds BinaryHeap::sift_down_to_bottom followed by its closing sift_up. -/
def siftDownToBottom (l : List Event) (pos : Nat) : List Event :=
  let en := l.length
  let start := pos
  let (l, p) := siftDownLoop en (en + 1) l pos
  siftUpGo start (p + 1) l p

/-- Embeds BinaryHeap::push: append and sift up from the last position. -/
def heapPush (l : List Event) (e : Event) : List Event :=
  let data := l ++ [e]
  siftUp data 0 (data.length - 1)

/-- Embeds BinaryHeap::pop: remove the last element; for a non-empty rest,
swap it into the root and sift down to the bottom. -/
def heapPop (l : List Event) : Option (Event × List Event) :=
  match l with
  | [] => none
  | _ :: _ =>
    let item := l.getD (l.length - 1) Event.dflt
    let data := l.dropLast
    match data with
    | [] => some (item, [])
    | _ :: _ =>
      let root := data.getD 0 Event.dflt
      let data := data.set 0 item
      some (root, siftDownToBottom data 0)

/-- Embeds mcs4-core/src/gate.rs for the gate shape the claims exercise: the
Inverter (input list, output and delay fields of the Gate trait). -/
inductive Gate
  | inverter (input : Nat) (output : Nat) (delay : Nat)
deriving DecidableEq

/-- Embeds Gate::inputs. -/
def Gate.inputs : Gate → List Nat
  | .inverter i _ _ => [i]

/-- Embeds Gate::output. -/
def Gate.output : Gate → Nat
  | .inverter _ o _ => o

/-- Embeds Gate::propagation_delay. -/
def Gate.propagation_delay : Gate → Nat
  | .inverter _ _ d => d

/-- Embeds Inverter::evaluate: invert the first gathered input. -/
def Gate.evaluate : Gate → List SignalLevel → SignalLevel
  | .inverter _ _ _, inputs => (inputs.getD 0 .x).invert

/-- Embeds struct SimulatorConfig. -/
structure SimulatorConfig where
  max_time : Nat
  record_history : Bool
  max_history : Nat
  max_delta_cycles : Nat
deriving DecidableEq

/-- Embeds the Default impl for SimulatorConfig. -/
def SimulatorConfig.default : SimulatorConfig := ⟨0, true, 10000, 1000⟩

/-- Embeds struct SimulatorStats. -/
structure SimulatorStats where
  events_processed : Nat
  time_elapsed : Nat
  clock_cycles : Nat
  peak_queue_depth : Nat
deriving DecidableEq

/-- Embeds the Default impl for SimulatorStats. -/
def SimulatorStats.default : SimulatorStats := ⟨0, 0, 0, 0⟩

/-- Embeds struct Simulator.  The signal HashMap and the signal-to-gates
HashMap become association lists keyed by the dense ids. -/
structure Simulator where
  current_time : Nat
  events : List Event
  signals : List (Nat × Signal)
  gates : List Gate
  signal_to_gates : List (Nat × List Nat)
  config : SimulatorConfig
  stats : SimulatorStats
  next_signal_id : Nat
deriving DecidableEq

/-- Association-list lookup (HashMap::get). -/
def assocGet {α : Type} (l : List (Nat × α)) (k : Nat) : Option α :=
  (l.find? (fun p => p.1 == k)).map (fun p => p.2)

/-- Association-list pointwise update of an existing key (HashMap::get_mut). -/
def assocUpdate {α : Type} (l : List (Nat × α)) (k : Nat) (v : α) : List (Nat × α) :=
  l.map (fun p => if p.1 = k then (p.1, v) else p)

/-- Association-list entry insertion or update (HashMap entry or_default
followed by push). -/
def assocPushGate (l : List (Nat × List Nat)) (k : Nat) (gate_id : Nat) :
    List (Nat × List Nat) :=
  if (l.find? (fun p => p.1 == k)).isSome then
    l.map (fun p => if p.1 = k then (p.1, p.2 ++ [gate_id]) else p)
  else
    l ++ [(k, [gate_id])]

/-- Embeds Simulator::with_config. -/
def Simulator.with_config (config : SimulatorConfig) : Simulator :=
  ⟨0, [], [], [], [], config, SimulatorStats.default, 0⟩

/-- Embeds Simulator::new. -/
def Simulator.new : Simulator := Simulator.with_config SimulatorConfig.default

/-- Embeds Simulator::alloc_signal: returns the dense id with the new state. -/
def Simulator.alloc_signal (sim : Simulator) (name : String) (initial : SignalLevel) :
    Nat × Simulator :=
  let id := sim.next_signal_id
  let signal :=
    if sim.config.record_history then Signal.with_history_limit name initial sim.config.max_history
    else Signal.new name initial
  (id, { sim with next_signal_id := sim.next_signal_id + 1,
                  signals := sim.signals ++ [(id, signal)] })

/-- Embeds Simulator::add_gate: register the gate under each of its inputs. -/
def Simulator.add_gate (sim : Simulator) (gate : Gate) : Nat × Simulator :=
  let gate_id := sim.gates.length
  let index := gate.inputs.foldl (fun idx input => assocPushGate idx input gate_id)
    sim.signal_to_gates
  (gate_id, { sim with signal_to_gates := index, gates := sim.gates ++ [gate] })

/-- Embeds Simulator::schedule. -/
def Simulator.schedule (sim : Simulator) (time : Nat) (target : Nat) (value : SignalLevel)
    (source : EventSource) : Simulator :=
  { sim with events := heapPush sim.events ⟨time, target, value, source⟩ }

/-- Embeds Simulator::schedule_delta. -/
def Simulator.schedule_delta (sim : Simulator) (delay : Nat) (target : Nat)
    (value : SignalLevel) (source : EventSource) : Simulator :=
  sim.schedule (sim.current_time + delay) target value source

/-- Embeds Simulator::get_signal: X for an unknown id. -/
def Simulator.get_signal (sim : Simulator) (id : Nat) : SignalLevel :=
  match assocGet sim.signals id with
  | some s => s.current
  | none => .x

/-- Embeds Simulator::evaluate_gate: re-evaluate one gate and schedule an
output event when the output would change. -/
def Simulator.evaluate_gate (sim : Simulator) (gate_id : Nat) : Simulator :=
  match sim.gates.get? gate_id with
  | none => sim
  | some gate =>
    let inputs := gate.inputs.map sim.get_signal
    let new_output := gate.evaluate inputs
    let output_id := gate.output
    let delay := gate.propagation_delay
    let current_output := sim.get_signal output_id
    if new_output ≠ current_output then
      sim.schedule (sim.current_time + delay) output_id new_output (.gate gate_id)
    else sim

/-- Embeds Simulator::apply_event: ignore unknown targets, suppress no-op
values, otherwise update the signal and re-evaluate the dependent gates. -/
def Simulator.apply_event (sim : Simulator) (event : Event) : Simulator :=
  match assocGet sim.signals event.target with
  | none => sim
  | some signal =>
    if signal.current = event.value then sim
    else
      let sim := { sim with
        signals := assocUpdate sim.signals event.target (signal.update event.time event.value) }
      let dependent := (assocGet sim.signal_to_gates event.target).getD []
      dependent.foldl (fun s gid => s.evaluate_gate gid) sim

/-- Embeds Simulator::step: pop the earliest event, advance time and stats,
stop past max_time, otherwise apply the event. -/
def Simulator.step (sim : Simulator) : Option Nat × Simulator :=
  match heapPop sim.events with
  | none => (none, sim)
  | some (event, rest) =>
    let sim := { sim with events := rest }
    let sim :=
      if sim.events.length > sim.stats.peak_queue_depth then
        { sim with stats := { sim.stats with peak_queue_depth := sim.events.length } }
      else sim
    let sim := { sim with current_time := event.time,
                          stats := { sim.stats with
                            events_processed := sim.stats.events_processed + 1,
                            time_elapsed := event.time } }
    if sim.config.max_time > 0 ∧ sim.current_time > sim.config.max_time then (none, sim)
    else
      let sim := sim.apply_event event
      (some sim.current_time, sim)

/-- Iterates Simulator::step, keeping only the state. -/
def Simulator.stepN (sim : Simulator) : Nat → Simulator
  | 0 => sim
  | n + 1 => (sim.step).2.stepN n

/-- Embeds Simulator::is_done. -/
def Simulator.is_done (sim : Simulator) : Bool := sim.events.isEmpty

/-- Embeds Simulator::pending_events. -/
def Simulator.pending_events (sim : Simulator) : Nat := sim.events.length

end MCS4

namespace MCS4

/-! Helper lemmas. -/

/-- A defaulted in-range read is a member of the list. -/
theorem getD_mem {α : Type} (l : List α) (i : Nat) (d : α) (h : i < l.length) :
    l.getD i d ∈ l := by
  induction l generalizing i with
  | nil => simp at h
  | cons a rest ih =>
    cases i with
    | zero => exact List.mem_cons_self a rest
    | succ j => exact List.mem_cons_of_mem a (ih j (by simpa using h))

/-- Reading back an in-range list position just written returns the written
value. -/
theorem getD_set_self {α : Type} (l : List α) (i : Nat) (v d : α) (h : i < l.length) :
    (l.set i v).getD i d = v := by
  induction l generalizing i with
  | nil => simp at h
  | cons a rest ih =>
    cases i with
    | zero => rfl
    | succ j => exact ih j (by simpa using h)

/-! Claim C7: the 4040 seven-entry call stack. -/

/-- C7.  For every reachable 4040 call-stack state (seven slots, pointer at
most 7), push fails with stack_overflow exactly when the stack already holds
7 entries and pop fails with stack_underflow exactly when it is empty; a
successful push stores the address masked to 12 bits at the old pointer and
advances the pointer; a successful pop steps the pointer back and leaves the
slots untouched.  The embedding returns a new state only on the ok path, so
a failing operation leaves the stack unchanged by construction (the Rust
error path likewise performs no mutation before returning Err). -/
theorem c7_stack_bounds (s : CallStack) (addr : Nat)
    (hlen : s.stack.length = 7) (hsp : s.sp ≤ 7) :
    (s.push addr = .error "stack_overflow" ↔ s.depth = 7) ∧
    (s.pop = .error "stack_underflow" ↔ s.depth = 0) ∧
    (∀ s', s.push addr = .ok s' →
      s'.stack.getD s.sp 0 = addr &&& 0x0FFF ∧ s'.sp = s.sp + 1 ∧ s'.depth = s.depth + 1) ∧
    (∀ v s', s.pop = .ok (v, s') →
      s'.sp = s.sp - 1 ∧ s'.stack = s.stack ∧ v = s.stack.getD (s.sp - 1) 0) := by
  refine ⟨?_, ?_, ?_, ?_⟩
  · unfold CallStack.push CallStack.is_full CallStack.depth
    constructor
    · intro h
      by_contra hne
      have : ¬(s.sp ≥ 7) := by omega
      simp [this] at h
    · intro h
      simp [h]
  · unfold CallStack.pop CallStack.is_empty CallStack.depth
    constructor
    · intro h
      by_contra hne
      simp [hne] at h
    · intro h
      simp [h]
  · intro s' h
    unfold CallStack.push at h
    by_cases hf : s.is_full
    · simp [hf] at h
    · simp [hf] at h
      have hlt : s.sp < s.stack.length := by
        unfold CallStack.is_full at hf
        simp at hf
        omega
      subst h
      refine ⟨getD_set_self _ _ _ _ hlt, rfl, rfl⟩
  · intro v s' h
    unfold CallStack.pop at h
    by_cases he : s.is_empty
    · simp [he] at h
    · simp [he] at h
      obtain ⟨hv, hs⟩ := h
      subst hs
      refine ⟨rfl, rfl, ?_⟩
      simpa using hv.symm

/-- Witness for C7: a full stack (pointer 7) rejects a push with
stack_overflow, and the fresh stack rejects a pop with stack_underflow. -/
theorem c7_stack_bounds_witness :
    ((⟨List.replicate 7 0, 7⟩ : CallStack).stack.length = 7 ∧ (7 : Nat) ≤ 7) ∧
    (⟨List.replicate 7 0, 7⟩ : CallStack).push 0xFABC = .error "stack_overflow" ∧
    CallStack.new.pop = .error "stack_underflow" := by
  refine ⟨⟨by decide, by decide⟩, ?_, ?_⟩
  · exact (c7_stack_bounds ⟨List.replicate 7 0, 7⟩ 0xFABC (by decide) (by decide)).1.mpr rfl
  · exact (c7_stack_bounds CallStack.new 0 (by decide) (by decide)).2.1.mpr rfl

/-! Claim C8: 4004 call and ret restore the program counter. -/

/-- C8.  For every 4004 register-file state with the pointer of the 3-slot
circular stack in range, call sets the program counter to the address masked
to 12 bits and advances the pointer mod 3, and an immediately following ret
restores both the program counter and the pointer. -/
theorem c8_call_ret (r : Registers) (addr : Nat)
    (hlen : r.stack.length = 3) (hsp : r.sp < 3) :
    (r.call addr).pc = addr &&& 0x0FFF ∧
    (r.call addr).sp = (r.sp + 1) % 3 ∧
    ((r.call addr).ret).pc = r.pc ∧
    ((r.call addr).ret).sp = r.sp ∧
    ((r.call addr).ret).pc_value = r.pc_value := by
  have hget : (r.stack.set r.sp r.pc).getD r.sp 0 = r.pc :=
    getD_set_self _ _ _ _ (by omega)
  have hsp : (if (r.sp + 1) % 3 = 0 then 2 else (r.sp + 1) % 3 - 1) = r.sp := by
    rcases (by omega : r.sp = 0 ∨ r.sp = 1 ∨ r.sp = 2) with h | h | h <;> rw [h] <;> decide
  refine ⟨rfl, rfl, ?_, ?_, ?_⟩
  · simp only [Registers.call, Registers.ret]
    rw [hsp, hget]
  · simp only [Registers.call, Registers.ret]
    rw [hsp]
  · simp only [Registers.call, Registers.ret, Registers.pc_value]
    rw [hsp, hget]

/-- Witness for C8 at a concrete register file with pointer 2 (the wrap case)
and an address wider than 12 bits. -/
theorem c8_call_ret_witness :
    ((⟨List.replicate 16 0, 0x345, [7, 8, 9], 2⟩ : Registers).call 0xFABC).pc = 0xABC ∧
    (((⟨List.replicate 16 0, 0x345, [7, 8, 9], 2⟩ : Registers).call 0xFABC).ret).pc = 0x345 := by
  have h := c8_call_ret ⟨List.replicate 16 0, 0x345, [7, 8, 9], 2⟩ 0xFABC (by decide) (by decide)
  exact ⟨h.1, h.2.2.1⟩

/-! Claim C9: Mcs4System::reset. -/

/-- C9 (amended).  Reset preserves the ROM contents (read_rom is unchanged at
every address), installs a fresh CPU, bus, control block and cycle state, and
rebuilds every RAM chip from its ids; but it leaves the machine-cycle counter
unchanged, so cycles() returns its pre-reset value rather than 0. -/
theorem c9_reset_frame (s : Mcs4System) :
    s.reset.rom = s.rom ∧
    (∀ addr, s.reset.read_rom addr = s.read_rom addr) ∧
    s.reset.cpu = I4004.new ∧
    s.reset.bus = DataBus.new ∧
    s.reset.control = ControlSignals.mcs4 ∧
    s.reset.cycle = CycleState.new ∧
    s.reset.ram = s.ram.map (fun r => I4002.new r.chip_id r.bank_id) ∧
    s.reset.total_cycles = s.total_cycles :=
  ⟨rfl, fun _ => rfl, rfl, rfl, rfl, rfl, rfl, rfl⟩

/-- C9 counterexample.  On the minimal system with a one-byte NOP program,
one machine cycle (8 phases) then reset leaves cycles() at 1, not 0: reset
never touches total_cycles. -/
theorem c9_cycles_counterexample :
    ((Mcs4System.minimal.load_rom [0x00]).stepN 8).reset.cycles = 1 ∧
    ((Mcs4System.minimal.load_rom [0x00]).stepN 8).reset.cycles ≠ 0 := by
  constructor
  · decide
  · decide

/-! Claim C1: JUN in the minimal topology. -/

/-- C1.  Evaluation of the code at the claimed scenario: in the minimal
topology with ROM bytes 41 23 (JUN 0x123), the program counter is still 0
after one claimed instruction time (2 machine cycles, 16 phases) and stays 0
after 4 machine cycles: phase_x3 skips both the PC increment and the
second-cycle setup whenever the decoder holds no instruction, which is
exactly the state after the first byte of any two-byte instruction, so the
second byte is never fetched and the jump never executes.  The execute
function itself, handed a decoded JUN, does set the 12-bit PC to the target,
confirming the slip is in the two-byte sequencing, not the jump. -/
theorem c1_jun_system :
    ((Mcs4System.minimal.load_rom [0x41, 0x23]).run_cycles 2).pc = 0 ∧
    ((Mcs4System.minimal.load_rom [0x41, 0x23]).run_cycles 4).pc = 0 ∧
    (∀ (cpu : I4004) (bus : DataBus),
      (cpu.execute (.jun 0x1 0x23) bus).1.registers.pc = 0x123) := by
  refine ⟨by decide, by decide, ?_⟩
  intro cpu bus
  simp only [I4004.execute, Registers.set_pc]
  decide

/-! Claim C4: SRC publication to the 4002 chips. -/

/-- C4.  Evaluation of the code at the claimed scenario: after the CPU
executes SRC P0 with pair value 0xAB (set up by single-byte LDM and XCH
instructions, since two-byte FIM never completes, see C1), the CPU-internal
latches hold chip 0xA and address 0xB, but the 4002 chip still holds the
reset values (0, 0) in its SRC latches: Mcs4System::step never calls
I4002::set_src_address. -/
theorem c4_src_not_published :
    (((Mcs4System.minimal.load_rom [0xDA, 0xB0, 0xDB, 0xB1, 0x21]).stepN 40).register_pair 0
        = 0xAB) ∧
    ((Mcs4System.minimal.load_rom [0xDA, 0xB0, 0xDB, 0xB1, 0x21]).stepN 40).cpu.ram_chip = 0xA ∧
    ((Mcs4System.minimal.load_rom [0xDA, 0xB0, 0xDB, 0xB1, 0x21]).stepN 40).cpu.ram_address
        = 0xB ∧
    (((Mcs4System.minimal.load_rom [0xDA, 0xB0, 0xDB, 0xB1, 0x21]).stepN 40).ram.getD 0
        (I4002.new 0 0)).selected_register = 0 ∧
    (((Mcs4System.minimal.load_rom [0xDA, 0xB0, 0xDB, 0xB1, 0x21]).stepN 40).ram.getD 0
        (I4002.new 0 0)).selected_char = 0 := by
  refine ⟨by decide, by decide, by decide, by decide, by decide⟩

/-! Claim C5: bus contention. -/

/-- C5 counterexample.  Two active drivers disagreeing with nibbles 0 and 1
drive all lines to X and raise the contention flag, but read() returns 0,
which IS the nibble of the first driver: the claim that read() differs from
both driven nibbles fails whenever one driven nibble is 0, because X lines
contribute no High bit and the collected value is 0. -/
theorem c5_read_zero_counterexample :
    (((((DataBus.new.add_driver "CPU").2.add_driver "ROM").2).drive 0 0 0).drive 1 1 0).read
        = 0 ∧
    (((((DataBus.new.add_driver "CPU").2.add_driver "ROM").2).drive 0 0 0).drive 1 1 0).read
        = 0 &&& 0x0F ∧
    (((((DataBus.new.add_driver "CPU").2.add_driver "ROM").2).drive 0 0 0).drive 1 1 0).has_contention
        = true := by
  refine ⟨by decide, by decide, by decide⟩

/-- C5 (amended).  For a bus with two registered drivers that are both driven
with disagreeing nibble values, all four lines resolve to X, has_contention()
returns true, and read() returns 0 (an X line contributes no bit), which
differs from each driven nibble exactly when that nibble is non-zero.
Resolution is a total function, so the simulation continues past the
conflict. -/
theorem c5_contention (a b t : Nat) (hne : a &&& 0x0F ≠ b &&& 0x0F) :
    ((((((DataBus.new.add_driver "CPU").2.add_driver "ROM").2).drive 0 a t).drive 1 b t).lines.all
        (fun l => l.current = .x)) = true ∧
    (((((DataBus.new.add_driver "CPU").2.add_driver "ROM").2).drive 0 a t).drive 1 b t).has_contention
        = true ∧
    (((((DataBus.new.add_driver "CPU").2.add_driver "ROM").2).drive 0 a t).drive 1 b t).read
        = 0 ∧
    (a &&& 0x0F ≠ 0 →
      (((((DataBus.new.add_driver "CPU").2.add_driver "ROM").2).drive 0 a t).drive 1 b t).read
        ≠ a &&& 0x0F) ∧
    (b &&& 0x0F ≠ 0 →
      (((((DataBus.new.add_driver "CPU").2.add_driver "ROM").2).drive 0 a t).drive 1 b t).read
        ≠ b &&& 0x0F) := by
  have hb : (b &&& 0x0F ≠ a &&& 0x0F) := fun h => hne h.symm
  simp [DataBus.new, DataBus.add_driver, DataBus.drive, DataBus.resolve, listModify,
    DataBus.read, DataBus.has_contention, Signal.update_current, hb, List.enum,
    List.enumFrom]
  exact ⟨fun h h0 => h h0.symm, fun h h0 => h h0.symm⟩

/-- Witness for C5 at the nibbles of the spec scenario, 1010 and 0101: the
hypothesis holds and read() returns 0, which differs from both. -/
theorem c5_contention_witness :
    ((0b1010 : Nat) &&& 0x0F ≠ (0b0101 : Nat) &&& 0x0F) ∧
    (((((DataBus.new.add_driver "CPU").2.add_driver "ROM").2).drive 0 0b1010 0).drive
        1 0b0101 0).has_contention = true ∧
    (((((DataBus.new.add_driver "CPU").2.add_driver "ROM").2).drive 0 0b1010 0).drive
        1 0b0101 0).read = 0 := by
  refine ⟨by decide, ?_, ?_⟩
  · exact (c5_contention 0b1010 0b0101 0 (by decide)).2.1
  · exact (c5_contention 0b1010 0b0101 0 (by decide)).2.2.1

/-! Claim C10: Signal::value_at before the recorded history. -/

/-- When every history entry has a time strictly above the target, every
probe of the embedded binary search compares Greater, so the left bound never
moves and the search reports insertion point left. -/
theorem bsearchGo_gt (l : List (Nat × SignalLevel)) (target : Nat)
    (hall : ∀ p ∈ l, target < p.1) :
    ∀ (fuel left right : Nat), right - left < fuel → right ≤ l.length →
      bsearchGo l target fuel left right = .notFound left := by
  intro fuel
  induction fuel with
  | zero => intro left right hf _; omega
  | succ fuel ih =>
    intro left right hf hr
    unfold bsearchGo
    by_cases hlr : left < right
    · have hmidlt : left + (right - left) / 2 < right := by
        have := Nat.div_le_self (right - left) 2
        have h2 : (right - left) / 2 < right - left := Nat.div_lt_self (by omega) (by omega)
        omega
      have hkey : target < (l.getD (left + (right - left) / 2) (0, SignalLevel.low)).1 := by
        apply hall
        exact getD_mem _ _ _ (by omega)
      simp only [hlr, if_true, if_pos]
      rw [if_neg (by omega), if_pos hkey]
      apply ih
      · have h2 : (right - left) / 2 < right - left := Nat.div_lt_self (by omega) (by omega)
        omega
      · omega
    · simp [hlr]

/-- C10.  For a signal whose recorded history is sorted by time, value_at at
any time strictly before the first recorded transition returns the inversion
of the first recorded level (not the actual initial level the signal was
created with), and value_at on an empty history returns the current level. -/
theorem c10_value_at (s : Signal) (t : Nat)
    (hsort : List.Pairwise (fun a b => a.1 ≤ b.1) s.history) :
    (∀ t0 lvl rest, s.history = (t0, lvl) :: rest → t < t0 →
      s.value_at t = lvl.invert) ∧
    (s.history = [] → s.value_at t = s.current) := by
  constructor
  · intro t0 lvl rest hh ht
    have hall : ∀ p ∈ s.history, t < p.1 := by
      rw [hh]
      rw [hh] at hsort
      intro p hp
      rcases List.mem_cons.mp hp with h | h
      · subst h; exact ht
      · have := (List.pairwise_cons.mp hsort).1 p h
        omega
    unfold Signal.value_at bsearchByTime
    rw [bsearchGo_gt s.history t hall (s.history.length + 1) 0 s.history.length
      (by omega) (by omega)]
    rw [hh]
    rfl
  · intro hh
    unfold Signal.value_at bsearchByTime
    rw [bsearchGo_gt s.history t (by rw [hh]; intro p hp; simp at hp)
      (s.history.length + 1) 0 s.history.length (by omega) (by omega)]
    rw [hh]
    rfl

/-- Witness for C10: a signal created at Z whose only transition is to High
at time 100 reports Low (the inversion of High) at time 50, and a fresh
signal with empty history reports its current level Z. -/
theorem c10_value_at_witness :
    List.Pairwise (fun (a b : Nat × SignalLevel) => a.1 ≤ b.1)
      ((Signal.new "W" .z).update 100 .high).history ∧
    ((Signal.new "W" .z).update 100 .high).value_at 50 = .low ∧
    (Signal.new "E" .z).value_at 7 = .z := by
  have hhist : ((Signal.new "W" .z).update 100 .high).history = [(100, SignalLevel.high)] := by
    decide
  have hpw : List.Pairwise (fun (a b : Nat × SignalLevel) => a.1 ≤ b.1)
      ((Signal.new "W" .z).update 100 .high).history := by
    rw [hhist]; exact List.pairwise_singleton _ _
  refine ⟨hpw, ?_, ?_⟩
  · exact (c10_value_at ((Signal.new "W" .z).update 100 .high) 50 hpw).1
      100 .high [] (by decide) (by decide)
  · exact (c10_value_at (Signal.new "E" .z) 7 List.Pairwise.nil).2 (by decide)

/-! Claim C6: PHI1/PHI2 non-overlap. -/

/-- Inductive invariant of the step-mode clock: a High PHI1 pins phase_time
at the PHI1 falling offset with PHI2 not High, and a High PHI2 pins
phase_time at the PHI2 falling offset, with the arithmetic side conditions
that let the next tick fire the right branch first. -/
def ClockInv (c : TwoPhaseClockTwoPhaseClock) : Prop :=
  (c.phi1.current = .high →
    c.phase_time = c.config.phi1_width ∧ c.phi2.current ≠ .high) ∧
  (c.phi2.current = .high →
    c.phase_time = c.config.phi1_width + c.config.phi1_to_phi2_delay + c.config.phi2_width ∧
    c.config.phi1_width + c.config.phi1_to_phi2_delay ≠ 0 ∧
    c.config.phi1_to_phi2_delay ≠ 0 ∧
    c.phi1.current ≠ .high)

theorem clockInv_new (cfg : ClockConfig) : ClockInv (TwoPhaseClockTwoPhaseClock.new cfg) := by
  constructor
  · intro h; cases h
  · intro h; cases h

theorem clockInv_tick (c : TwoPhaseClockTwoPhaseClock) (t : Nat) (h : ClockInv c) :
    ClockInv (c.tick t).1 := by
  obtain ⟨h1, h2⟩ := h
  unfold TwoPhaseClockTwoPhaseClock.tick
  dsimp only
  split_ifs with e0 e1 e2 e3 <;> unfold ClockInv <;> dsimp only
  · -- PHI1 rising
    have hp2 : c.phi2.current ≠ .high := by
      intro hh
      obtain ⟨hpt, hne0, _, _⟩ := h2 hh
      omega
    constructor
    · intro _
      exact ⟨by omega, hp2⟩
    · intro hh
      exact absurd hh hp2
  · -- PHI1 falling
    constructor
    · intro hh
      rw [Signal.update_current] at hh
      cases hh
    · intro hh
      obtain ⟨hpt, _, hd, _⟩ := h2 hh
      omega
  · -- PHI2 rising
    have hp1 : c.phi1.current ≠ .high := by
      intro hh
      exact e1 (h1 hh).1
    constructor
    · intro hh
      exact absurd hh hp1
    · intro _
      refine ⟨by omega, by omega, by omega, hp1⟩
  · -- PHI2 falling
    constructor
    · intro hh
      exact absurd (h1 hh).1 e1
    · intro hh
      rw [Signal.update_current] at hh
      cases hh
  · -- no edge
    exact ⟨h1, h2⟩

theorem clockInv_runTicks (c : TwoPhaseClockTwoPhaseClock) (h : ClockInv c) :
    ∀ ts : List Nat, ClockInv (c.runTicks ts) := by
  intro ts
  induction ts generalizing c with
  | nil => exact h
  | cons t ts ih => exact ih _ (clockInv_tick c t h)

/-- Applying any prefix of the schedule-mode event list never yields both
levels High: within one period the fold passes through (High, Low),
(Low, Low), (Low, High), (Low, Low) and hands (Low, Low) to the next
period. -/
theorem applySchedule_take_nonoverlap (cfg : ClockConfig) :
    ∀ (n t k : Nat),
      ¬((applySchedule (.low, .low) ((scheduleEventsAux cfg t n).take k)).1 = .high ∧
        (applySchedule (.low, .low) ((scheduleEventsAux cfg t n).take k)).2 = .high) := by
  intro n
  induction n with
  | zero =>
    intro t k
    simp [scheduleEventsAux, applySchedule]
  | succ n ih =>
    intro t k
    rcases k with _ | (_ | (_ | (_ | k)))
    · simp [applySchedule]
    · simp [scheduleEventsAux, applySchedule]
    · simp [scheduleEventsAux, applySchedule]
    · simp [scheduleEventsAux, applySchedule]
    · simp only [scheduleEventsAux, List.take_succ_cons, applySchedule]
      exact ih _ k

/-- C6.  Starting from the reset state of the step-mode clock, after any
finite sequence of tick() calls (any configuration, any tick times) PHI1 and
PHI2 are never both High; and for the event list produced by
schedule_events, the levels obtained by applying any prefix of the schedule
in order are never both High. -/
theorem c6_clock_nonoverlap :
    (∀ (cfg : ClockConfig) (ts : List Nat),
      ¬(((TwoPhaseClockTwoPhaseClock.new cfg).runTicks ts).phi1.current = .high ∧
        ((TwoPhaseClockTwoPhaseClock.new cfg).runTicks ts).phi2.current = .high)) ∧
    (∀ (cfg : ClockConfig) (start n k : Nat),
      ¬((applySchedule (.low, .low) ((schedule_events cfg start n).take k)).1 = .high ∧
        (applySchedule (.low, .low) ((schedule_events cfg start n).take k)).2 = .high)) := by
  constructor
  · intro cfg ts ⟨hp1, hp2⟩
    have h := clockInv_runTicks _ (clockInv_new cfg) ts
    exact (h.1 hp1).2 hp2
  · intro cfg start n k
    exact applySchedule_take_nonoverlap cfg n start k

/-! Claim C2: same-timestamp event ordering. -/

/-- Four events scheduled at time 100 on one signal, in value order High,
Low, Z, X: the insertion sequence is fully distinguishable from the recorded
history. -/
def fourEventSim : Simulator :=
  let p := Simulator.new.alloc_signal "S" .low
  let sim := p.2.schedule 100 p.1 .high .stimulus
  let sim := sim.schedule 100 p.1 .low .stimulus
  let sim := sim.schedule 100 p.1 .z .stimulus
  sim.schedule 100 p.1 .x .stimulus

/-- The transition history of the signal after the four same-time events are
processed; the history records the values in processing order. -/
def fourEventHistory : List (Nat × SignalLevel) :=
  ((fourEventSim.stepN 4).signals.getD 0 (0, Signal.new "S" .low)).2.history

/-- C2 counterexample.  The four same-time events are NOT processed in
insertion order: the event applied second is the one scheduled third (value
Z), not the one scheduled second (value Low), so for the pair (second
scheduled, third scheduled) the first-scheduled event is not processed
first. -/
theorem c2_fifo_counterexample :
    fourEventHistory ≠ [(100, .high), (100, .low), (100, .z), (100, .x)] ∧
    (fourEventHistory.getD 1 (0, .low)).2 = .z := by
  refine ⟨by decide, by decide⟩

/-- C2 (amended).  Same-time events are processed in a deterministic order
that is a function of the insertion sequence, namely the pop order of the
binary heap ordered by time alone; for four events inserted first, second,
third, fourth at one timestamp that order is first, third, second, fourth,
and all four are consumed. -/
theorem c2_same_time_order :
    fourEventHistory = [(100, .high), (100, .z), (100, .low), (100, .x)] ∧
    (fourEventSim.stepN 4).events = [] ∧
    (fourEventSim.stepN 4).stats.events_processed = 4 := by
  refine ⟨by decide, by decide, by decide⟩

/-! Claim C3: the delta-cycle bound. -/

/-- A zero-delay inverter feeding its own input (the oscillating zero-delay
feedback loop of the claim), with one stimulus event at time 100. -/
def oscSim : Simulator :=
  let p := Simulator.new.alloc_signal "OSC" .low
  let q := p.2.add_gate (Gate.inverter p.1 p.1 0)
  q.2.schedule 100 p.1 .high .stimulus

theorem heapPop_singleton (e : Event) : heapPop [e] = some (e, []) := rfl

theorem heapPush_nil (e : Event) : heapPush [] e = [e] := rfl

/-- Inductive invariant of the zero-delay oscillator: fixed default config,
the one self-inverter, one signal whose current level is defined, and exactly
one pending event at time 100 carrying the inverted level. -/
def OscInv (sim : Simulator) : Prop :=
  sim.config = SimulatorConfig.default ∧
  sim.gates = [Gate.inverter 0 0 0] ∧
  sim.signal_to_gates = [(0, [0])] ∧
  ∃ sig src, sim.signals = [(0, sig)] ∧
    (sig.current = .low ∨ sig.current = .high) ∧
    sim.events = [⟨100, 0, sig.current.invert, src⟩]

theorem oscInv_init : OscInv oscSim :=
  ⟨rfl, rfl, rfl, Signal.with_history_limit "OSC" .low 10000, .stimulus, rfl, Or.inl rfl, rfl⟩

/-- One step of the oscillator pops the pending event at time 100, flips the
signal, and schedules the next flip at the same timestamp: the invariant is
preserved forever and time never moves past 100. -/
theorem oscInv_step (sim : Simulator) (h : OscInv sim) :
    (sim.step).1 = some 100 ∧ OscInv (sim.step).2 := by
  obtain ⟨hc, hg, hsg, sig, src, hsigs, hcur, hev⟩ := h
  rcases hcur with hcur | hcur <;>
    constructor <;>
      simp [OscInv, Simulator.step, hev, hc, hsg, hsigs, hg, Simulator.apply_event,
        Simulator.evaluate_gate, Simulator.get_signal, Simulator.schedule, assocGet,
        assocUpdate, heapPop_singleton, heapPush_nil,
        Signal.update_current, hcur, Gate.inputs, Gate.output, Gate.evaluate,
        Gate.propagation_delay, SignalLevel.invert, List.find?, List.map, List.foldl,
        List.getD, SimulatorConfig.default, List.length_nil, gt_iff_lt, Nat.not_lt_zero]

theorem oscInv_stepN : ∀ (n : Nat) (s : Simulator), OscInv s → OscInv (s.stepN n) := by
  intro n
  induction n with
  | zero => intro s h; exact h
  | succ n ih => intro s h; exact ih _ (oscInv_step s h).2

/-- C3.  Evaluation of the code at the failing input: although
max_delta_cycles is configured (default 1000), no driver loop ever consults
it; on the zero-delay feedback loop, after any number of steps the scheduler
still holds a pending event and the next step still processes it at
timestamp 100, so step(), run_until and run_events keep processing
same-timestamp events forever instead of stopping after at most
max_delta_cycles delta cycles. -/
theorem c3_zero_delay_loop_never_stops :
    oscSim.config.max_delta_cycles = 1000 ∧
    ∀ n : Nat, ((oscSim.stepN n).step).1 = some 100 ∧ (oscSim.stepN n).events ≠ [] := by
  refine ⟨rfl, fun n => ?_⟩
  have hinv := oscInv_stepN n oscSim oscInv_init
  refine ⟨(oscInv_step _ hinv).1, ?_⟩
  obtain ⟨-, -, -, sig, src, -, -, hev⟩ := hinv
  rw [hev]
  simp

end MCS4
